import Mathlib

/-!
Verification of the SVGD Gaussian-mixture demonstration notebook.

The repository is a single notebook (`gaussian_mixes.ipynb`) that builds a
2D Gaussian-mixture target density from TensorFlow-Probability components,
draws initial particles uniformly, and drives an external SVGD update loop
for an animation.  This file is a shallow embedding of that code:

* real numbers stand for floating-point values (the idealized real-number
  semantics); the dtype (precision) flow of the program is modelled
  separately and explicitly by a small `DType` calculus, because the spec
  makes claims about 32- vs 64-bit precision;
* the target mixture (`GaussianMixture`), the notebook configuration
  (`gass` / `cov` cell), the driver loop (`particlePlot` / `animate` /
  `FuncAnimation(frames = 100)`), and the initial sampler
  (`sampleInitialParticles`) are embedded from the source;
* the SVGD update engine and the RBF kernel live in the external `svgd`
  package, whose source is not in this repository; where a claim depends on
  them they are modelled from the specification document, and such
  definitions carry a doc comment starting with "Modelled from the spec:".
-/

/-- Points of the 2D state space: the notebook works throughout with
2-dimensional particles and a 2D mixture. -/
abbrev Point : Type := Fin 2 → ℝ

/-- 2×2 real matrices (covariances and their Cholesky factors). -/
abbrev Mat2 : Type := Matrix (Fin 2) (Fin 2) ℝ

/-- Embedding of `tf.cast(x, tf.float32)` in the real-number value
semantics: the cast only changes the storage precision of the value, so on
ideal reals it is the identity.  The precision change itself is modelled
separately by `DType` below. -/
def tfCastPoint (x : Point) : Point := x

/-- Density of `tfp.distributions.MultivariateNormalTriL(loc, scale_tril=L)`
at `x` for dimension 2: the multivariate normal with covariance `L * Lᵀ`,
written in terms of the scale factor `L`:
`exp(-‖L⁻¹(x-loc)‖²/2) / ((2π)^{d/2} · |det L|)` with `d = 2`. -/
noncomputable def mvnProbTriL (mean : Point) (L : Mat2) (x : Point) : ℝ :=
  Real.exp (-(∑ k, ((L⁻¹).mulVec (fun i => x i - mean i) k) ^ 2) / 2) /
    ((2 * Real.pi) * |L.det|)

/-- Embedding of `tf.linalg.cholesky` for a 2×2 symmetric positive-definite
matrix: the lower-triangular factor `L` with `L * Lᵀ = M`. -/
noncomputable def cholesky2 (M : Mat2) : Mat2 :=
  Matrix.of
    ![![Real.sqrt (M 0 0), 0],
      ![M 1 0 / Real.sqrt (M 0 0), Real.sqrt (M 1 1 - (M 1 0) ^ 2 / M 0 0)]]

/-- The `GaussianMixture` class of the notebook: its single attribute
`gaussians` is a list of pairs of a scale weight `c` and a component
density function. -/
structure GaussianMixture where
  gaussians : List (ℝ × (Point → ℝ))

/-- `GaussianMixture.toGaussian(c, mean, Cov)`: forms the Cholesky factor
`scale = tf.linalg.cholesky(Cov)` and pairs the weight with the
`MultivariateNormalTriL(loc=mean, scale_tril=scale)` density. -/
noncomputable def GaussianMixture.toGaussian (c : ℝ) (mean : Point) (Cov : Mat2) :
    ℝ × (Point → ℝ) :=
  (c, fun x => mvnProbTriL mean (cholesky2 Cov) x)

/-- `GaussianMixture.__init__(comps)`: maps `toGaussian` over the component
list. -/
noncomputable def GaussianMixture.ofComps (comps : List (ℝ × Point × Mat2)) :
    GaussianMixture :=
  ⟨comps.map fun comp => GaussianMixture.toGaussian comp.1 comp.2.1 comp.2.2⟩

/-- `GaussianMixture.pdf(x)` at a single point: the sum (`tf.reduce_sum`
with `axis = 0`) over the component list of `c * gaussian.prob(tf.cast(x,
tf.float32))`. -/
noncomputable def GaussianMixture.pdf (g : GaussianMixture) (x : Point) : ℝ :=
  (g.gaussians.map fun cg => cg.1 * cg.2 (tfCastPoint x)).sum

/-- `GaussianMixture.pdf` on an input point batch: the batched tensor
evaluation is pointwise in the batch index. -/
noncomputable def GaussianMixture.pdfBatch (g : GaussianMixture) (xs : List Point) :
    List ℝ :=
  xs.map g.pdf

/-- The covariance matrix `cov = [[0.9, 0.1], [0.1, 0.9]]` of the
configuration cell. -/
noncomputable def cov : Mat2 := Matrix.of ![![0.9, 0.1], ![0.1, 0.9]]

/-- The component list the notebook passes to `GaussianMixture`:
`[(0.3, [-4., 0.], cov), (0.7, [1., 0.], cov), (0.7, [4., 4.], cov)]`. -/
noncomputable def gaussComps : List (ℝ × Point × Mat2) :=
  [(0.3, ![-4, 0], cov), (0.7, ![1, 0], cov), (0.7, ![4, 4], cov)]

/-- The target mixture `gauss` of the configuration cell. -/
noncomputable def gauss : GaussianMixture := GaussianMixture.ofComps gaussComps

/-- Per-point form of claim C1: the constructed mixture's pdf is the
weighted sum of the component `MultivariateNormalTriL` densities. -/
theorem GaussianMixture.pdf_ofComps (comps : List (ℝ × Point × Mat2)) (x : Point) :
    (GaussianMixture.ofComps comps).pdf x =
      ∑ i : Fin comps.length,
        comps[i.1].1 *
          mvnProbTriL comps[i.1].2.1 (cholesky2 comps[i.1].2.2) x := by
  rw [Fin.sum_univ_get' comps
    (fun comp => comp.1 * mvnProbTriL comp.2.1 (cholesky2 comp.2.2) x)]
  simp only [GaussianMixture.pdf, GaussianMixture.ofComps, GaussianMixture.toGaussian,
    tfCastPoint, List.map_map, Function.comp_def]

/-- C1: for every GaussianMixture constructed from a list of (weight, mean,
covariance) components and every input point batch, `pdf` equals the
weighted sum over components of the weight times the multivariate-normal
density (with scale the Cholesky factor of the covariance). -/
theorem C1_pdf_is_weighted_sum (comps : List (ℝ × Point × Mat2)) (xs : List Point) :
    (GaussianMixture.ofComps comps).pdfBatch xs =
      xs.map fun x =>
        ∑ i : Fin comps.length,
          comps[i.1].1 *
            mvnProbTriL comps[i.1].2.1 (cholesky2 comps[i.1].2.2) x := by
  simp only [GaussianMixture.pdfBatch]
  congr 1
  funext x
  exact GaussianMixture.pdf_ofComps comps x

/-- C2 counterexample: the mixture configured in the notebook has three
components, not two. -/
theorem C2_cex : gauss.gaussians.length = 3 ∧ gauss.gaussians.length ≠ 2 := by
  constructor <;> simp [gauss, GaussianMixture.ofComps, gaussComps]

/-- C2 amended: the configured mixture has exactly three components, with
weights 0.3, 0.7, 0.7, centered at (-4,0), (1,0) and (4,4) respectively,
all with covariance `cov`. -/
theorem C2_amended :
    gauss.gaussians.length = 3 ∧
    gaussComps.map (fun comp => comp.1) = [0.3, 0.7, 0.7] ∧
    gaussComps.map (fun comp => comp.2.1) = [![-4, 0], ![1, 0], ![4, 4]] ∧
    gaussComps.map (fun comp => comp.2.2) = [cov, cov, cov] := by
  refine ⟨?_, rfl, rfl, rfl⟩
  simp [gauss, GaussianMixture.ofComps, gaussComps]

/-- TensorFlow floating-point dtypes that occur in the notebook. -/
inductive DType where
  | float32 : DType
  | float64 : DType
deriving DecidableEq

/-- Dtype of the result of `tf.cast(x, target)`: the target dtype,
whatever the input dtype was. -/
def tfCastDType (_x : DType) (target : DType) : DType := target

/-- Dtype of `sampleInitialParticles`: `tf.random.uniform(shape, *vrange,
dtype=tf.float64)` creates the initial particles at 64-bit precision. -/
def sampleInitialParticlesDType : DType := DType.float64

/-- Dtype at which `GaussianMixture.pdf` evaluates the component densities
when its input has dtype `xd`: the code computes
`gaussian.prob(tf.cast(x, tf.float32))`, so the density is evaluated at the
dtype `tf.cast` yields. -/
def pdfEvalDType (xd : DType) : DType := tfCastDType xd DType.float32

/-- C3 counterexample: the initial particles are 64-bit, but the density
evaluation inside `pdf` happens at 32-bit even on 64-bit particle input —
the particle values are silently narrowed by `tf.cast(x, tf.float32)`. -/
theorem C3_cex :
    sampleInitialParticlesDType = DType.float64 ∧
    pdfEvalDType sampleInitialParticlesDType ≠ DType.float64 := by
  decide

/-- C3 amended: the initial particles are created as 64-bit floats, but
every evaluation of the target density casts its input to 32-bit first, so
the density is evaluated at float32 regardless of the input dtype. -/
theorem C3_amended :
    sampleInitialParticlesDType = DType.float64 ∧
    pdfEvalDType DType.float64 = DType.float32 ∧
    pdfEvalDType DType.float32 = DType.float32 := by
  decide

/-- The `MultivariateNormalTriL` density is nonnegative everywhere. -/
theorem mvnProbTriL_nonneg (mean : Point) (L : Mat2) (x : Point) :
    0 ≤ mvnProbTriL mean L x := by
  unfold mvnProbTriL
  apply div_nonneg (Real.exp_pos _).le
  positivity

/-- C10: for every GaussianMixture whose component weights are all
nonnegative and every input point batch, every entry of `pdf` is
nonnegative. -/
theorem C10_pdf_nonneg (comps : List (ℝ × Point × Mat2)) (xs : List Point)
    (h : ∀ comp ∈ comps, 0 ≤ comp.1) :
    ∀ y ∈ (GaussianMixture.ofComps comps).pdfBatch xs, 0 ≤ y := by
  intro y hy
  simp only [GaussianMixture.pdfBatch, List.mem_map] at hy
  obtain ⟨x, -, rfl⟩ := hy
  rw [GaussianMixture.pdf_ofComps]
  refine Finset.sum_nonneg fun i _ => mul_nonneg ?_ (mvnProbTriL_nonneg _ _ _)
  exact h comps[i.1] (List.getElem_mem i.isLt)

/-- C10 witness: the notebook's mixture has nonnegative weights, and its
pdf at the origin is nonnegative. -/
theorem C10_pdf_nonneg_witness : 0 ≤ gauss.pdf ![0, 0] :=
  C10_pdf_nonneg gaussComps [![0, 0]]
    (by intro comp hc; fin_cases hc <;> norm_num)
    (gauss.pdf ![0, 0]) (List.mem_singleton.mpr rfl)

/-- The body of `animate` in `particlePlot`: each animation frame issues
the single call `svgd.update(x, 5)` on the particle state and then hands
the result to the scatter plot. -/
def animate {P : Type} (svgdUpdate : P → ℕ → P) (x : P) : P := svgdUpdate x 5

/-- Modelled from the spec: `SVGD.update(x, k)` lives in the external
`svgd` package, not in this repository.  Per §4.2 it repeats the
per-iteration SVGD step `k` times on the particle state, mutating the
caller-owned `tf.Variable` in place (modelled here as explicit state
threading). -/
def svgdUpdateModel {P : Type} (step : P → P) (x : P) (k : ℕ) : P := step^[k] x

/-- The `FuncAnimation` driver loop of `particlePlot`: `F` animation
frames, each running `animate` on the particle state left behind by the
previous frame (the `tf.Variable` passed via `fargs` is updated in place,
carrying the state from frame to frame). -/
def runFrames {P : Type} (svgdUpdate : P → ℕ → P) (x : P) : ℕ → P
  | 0 => x
  | F + 1 => animate svgdUpdate (runFrames svgdUpdate x F)

/-- C4: each animation frame issues exactly one call to the update
operation, with iteration count exactly 5: the frame's effect on any
particle state under any update operation is a single `update(x, 5)`, and
a call-logging update operation records exactly the one call with count
5. -/
theorem C4_one_update_call_of_five :
    (∀ (P : Type) (upd : P → ℕ → P) (x : P), animate upd x = upd x 5) ∧
    animate (fun (log : List ℕ) k => log ++ [k]) [] = [5] :=
  ⟨fun _ _ _ => rfl, rfl⟩

/-- C5: the particle state accumulates across animation frames: frame
`F + 1` starts from the state produced by frame `F`, so after `F` frames
the particles have undergone `5 * F` update iterations in total. -/
theorem C5_frames_accumulate (P : Type) (step : P → P) (x : P) (F : ℕ) :
    runFrames (svgdUpdateModel step) x (F + 1) =
      svgdUpdateModel step (runFrames (svgdUpdateModel step) x F) 5 ∧
    runFrames (svgdUpdateModel step) x F = step^[5 * F] x := by
  refine ⟨rfl, ?_⟩
  induction F with
  | zero => rfl
  | succ F ih =>
      show step^[5] (runFrames (svgdUpdateModel step) x F) = _
      rw [ih, ← Function.iterate_add_apply]
      congr 1
      omega

/-- `sampleInitialParticles(shape, vrange)` is
`tf.random.uniform(shape, *vrange, dtype=tf.float64)`.  The TensorFlow op
draws independent uniform values in `[lo, hi)`; its randomness is modelled
by an external stream `u` of uniform draws from `[0, 1)`, mapped affinely
onto the requested range, one draw per entry of the requested shape. -/
def sampleInitialParticles (shape : ℕ × ℕ) (vrange : ℝ × ℝ) (u : ℕ → ℝ) :
    List (List ℝ) :=
  (List.range shape.1).map fun i =>
    (List.range shape.2).map fun j =>
      vrange.1 + (vrange.2 - vrange.1) * u (i * shape.2 + j)

/-- C7: for every requested shape and range `(lo, hi)` with `lo < hi`, the
initial-particle sample has exactly the requested shape and every entry
lies in `[lo, hi]` (each entry an affine image of a uniform `[0,1)` draw,
i.e. uniform on `[lo, hi)`). -/
theorem C7_sampler_shape_range (shape : ℕ × ℕ) (lo hi : ℝ) (u : ℕ → ℝ)
    (hlt : lo < hi) (hu : ∀ n, 0 ≤ u n ∧ u n < 1) :
    (sampleInitialParticles shape (lo, hi) u).length = shape.1 ∧
    (∀ row ∈ sampleInitialParticles shape (lo, hi) u, row.length = shape.2) ∧
    (∀ row ∈ sampleInitialParticles shape (lo, hi) u, ∀ v ∈ row,
      lo ≤ v ∧ v ≤ hi) := by
  refine ⟨by simp [sampleInitialParticles], ?_, ?_⟩
  · intro row hrow
    simp only [sampleInitialParticles, List.mem_map] at hrow
    obtain ⟨i, -, rfl⟩ := hrow
    simp
  · intro row hrow v hv
    simp only [sampleInitialParticles, List.mem_map] at hrow
    obtain ⟨i, -, rfl⟩ := hrow
    simp only [List.mem_map] at hv
    obtain ⟨j, -, rfl⟩ := hv
    obtain ⟨h0, h1⟩ := hu (i * shape.2 + j)
    constructor
    · nlinarith
    · nlinarith

/-- C7 witness: a concrete 2×2 draw over the range (0, 1) from the
constant-zero uniform stream has shape 2×2 and entries in [0, 1]. -/
theorem C7_sampler_shape_range_witness :
    (sampleInitialParticles (2, 2) (0, 1) (fun _ => 0)).length = 2 ∧
    (∀ row ∈ sampleInitialParticles (2, 2) (0, 1) (fun _ => 0), row.length = 2) ∧
    (∀ row ∈ sampleInitialParticles (2, 2) (0, 1) (fun _ => 0), ∀ v ∈ row,
      (0 : ℝ) ≤ v ∧ v ≤ 1) :=
  C7_sampler_shape_range (2, 2) 0 1 (fun _ => 0) (by norm_num)
    (fun _ => ⟨le_refl 0, by norm_num⟩)

/-- Squared Euclidean distance between two particles. -/
noncomputable def sqDist (x y : Point) : ℝ := ∑ k, (x k - y k) ^ 2

/-- Modelled from the spec: the pairwise squared distances of a particle
set (all N² entries of the squared-distance matrix), used by the
median-heuristic bandwidth of the external `RbfKernel`. -/
noncomputable def pairwiseSqDists (n : ℕ) (X : Fin n → Point) : List ℝ :=
  (List.finRange n).flatMap fun i =>
    (List.finRange n).map fun j => sqDist (X i) (X j)

open scoped Classical in
/-- Median of a list of reals: middle element of the sorted list. -/
noncomputable def median (l : List ℝ) : ℝ :=
  (l.mergeSort (fun a b => decide (a ≤ b))).getD (l.length / 2) 0

/-- Modelled from the spec: the median-heuristic bandwidth of §4.1,
`h² = median(pairwise squared distances) / log N`. -/
noncomputable def medianHeuristicH2 (n : ℕ) (X : Fin n → Point) : ℝ :=
  median (pairwiseSqDists n X) / Real.log n

/-- Modelled from the spec: the RBF kernel matrix of the external
`RbfKernel`, `K[i,j] = exp(-‖x_i - x_j‖² / (2 h²))`, with the
median-heuristic bandwidth floored at a positive constant `ε` (§4.1
mandates an explicit positive floor; its value is implementation-defined,
so it is a parameter here). -/
noncomputable def RbfKernelMatrix (ε : ℝ) (n : ℕ) (X : Fin n → Point) :
    Matrix (Fin n) (Fin n) ℝ :=
  Matrix.of fun i j =>
    Real.exp (-sqDist (X i) (X j) / (2 * max (medianHeuristicH2 n X) ε))

/-- The squared distance is nonnegative. -/
theorem sqDist_nonneg (x y : Point) : 0 ≤ sqDist x y :=
  Finset.sum_nonneg fun k _ => sq_nonneg (x k - y k)

/-- The squared distance is symmetric. -/
theorem sqDist_comm (x y : Point) : sqDist x y = sqDist y x :=
  Finset.sum_congr rfl fun k _ => by ring

/-- C6: for every particle set with N ≥ 2 and every positive bandwidth
floor, the RBF kernel matrix evaluated on the set against itself is
symmetric, every entry lies in (0, 1], and every diagonal entry equals
1. -/
theorem C6_rbf_kernel_matrix_props (n : ℕ) (X : Fin n → Point) (ε : ℝ)
    (_hn : 2 ≤ n) (hε : 0 < ε) :
    (∀ i j, RbfKernelMatrix ε n X i j = RbfKernelMatrix ε n X j i) ∧
    (∀ i j, 0 < RbfKernelMatrix ε n X i j ∧ RbfKernelMatrix ε n X i j ≤ 1) ∧
    (∀ i, RbfKernelMatrix ε n X i i = 1) := by
  have hh2 : 0 < max (medianHeuristicH2 n X) ε := lt_max_of_lt_right hε
  refine ⟨fun i j => ?_, fun i j => ⟨Real.exp_pos _, ?_⟩, fun i => ?_⟩
  · simp only [RbfKernelMatrix, Matrix.of_apply, sqDist_comm]
  · simp only [RbfKernelMatrix, Matrix.of_apply]
    rw [Real.exp_le_one_iff]
    apply div_nonpos_of_nonpos_of_nonneg
    · simpa using sqDist_nonneg (X i) (X j)
    · positivity
  · simp only [RbfKernelMatrix, Matrix.of_apply]
    have : sqDist (X i) (X i) = 0 := by
      simp [sqDist]
    rw [this]
    simp

/-- C6 witness: for two coincident particles at the origin and floor 1,
the kernel matrix is symmetric, has entries in (0, 1], and unit
diagonal. -/
theorem C6_rbf_kernel_matrix_props_witness :
    (∀ i j, RbfKernelMatrix 1 2 (fun _ => ![0, 0]) i j =
      RbfKernelMatrix 1 2 (fun _ => ![0, 0]) j i) ∧
    (∀ i j, 0 < RbfKernelMatrix 1 2 (fun _ => ![0, 0]) i j ∧
      RbfKernelMatrix 1 2 (fun _ => ![0, 0]) i j ≤ 1) ∧
    (∀ i, RbfKernelMatrix 1 2 (fun _ => ![0, 0]) i i = 1) :=
  C6_rbf_kernel_matrix_props 2 (fun _ => ![0, 0]) 1 (by norm_num) (by norm_num)

/-- The `SVGD` object of the external `svgd` package, as the notebook
constructs it: a kernel, the target density function, and a step size. -/
structure SVGD where
  kernel : (ε : ℝ) → (n : ℕ) → (Fin n → Point) → Matrix (Fin n) (Fin n) ℝ
  targetDistribution : Point → ℝ
  stepSize : ℝ

/-- The notebook's `rbf = RbfKernel()` instance: evaluation is the RBF
kernel matrix. -/
noncomputable def rbf : (ε : ℝ) → (n : ℕ) → (Fin n → Point) →
    Matrix (Fin n) (Fin n) ℝ :=
  RbfKernelMatrix

/-- `svgd = SVGD(rbf, gauss.pdf, 0.1)` from the configuration cell: the
target capability handed over is the mixture's pdf itself. -/
noncomputable def svgd : SVGD := ⟨rbf, gauss.pdf, 0.1⟩

/-- Modelled from the spec: the external `svgd` package obtains the
log-density gradient used by the update by automatic differentiation of
the supplied density — the exact (Fréchet) derivative of
`log ∘ targetDistribution`, not a finite-difference approximation. -/
noncomputable def svgdLogDensityGradient (s : SVGD) : Point → (Point →L[ℝ] ℝ) :=
  fun x => fderiv ℝ (fun y => Real.log (s.targetDistribution y)) x

/-- C8: the target capability handed to the update engine is the mixture's
probability-density function itself (`gauss.pdf`), and the log-density
gradient used by the update is the automatic derivative of that density. -/
theorem C8_target_is_pdf_and_autodiff :
    svgd.targetDistribution = gauss.pdf ∧
    svgdLogDensityGradient svgd =
      fun x => fderiv ℝ (fun y => Real.log (gauss.pdf y)) x :=
  ⟨rfl, rfl⟩

/-- The whole notebook run: sample `x0 = sampleInitialParticles((200, 2),
(-7, 7))` and drive 100 animation frames from it.  The random stream `u`
is consumed only by the initial draw. -/
noncomputable def notebookRun (step : List (List ℝ) → List (List ℝ))
    (u : ℕ → ℝ) : List (List ℝ) :=
  runFrames (svgdUpdateModel step) (sampleInitialParticles (200, 2) (-7, 7) u) 100

/-- C9: `GaussianMixture.pdf` is deterministic — equal input batches give
equal outputs — and the initial particle draw is the only randomized
operation: two runs whose initial draws agree agree everywhere, whatever
their random streams. -/
theorem C9_pdf_deterministic_sampler_only_random :
    (∀ (g : GaussianMixture) (xs ys : List Point), xs = ys →
      g.pdfBatch xs = g.pdfBatch ys) ∧
    (∀ (step : List (List ℝ) → List (List ℝ)) (u v : ℕ → ℝ),
      sampleInitialParticles (200, 2) (-7, 7) u =
        sampleInitialParticles (200, 2) (-7, 7) v →
      notebookRun step u = notebookRun step v) := by
  constructor
  · intro g xs ys h
    rw [h]
  · intro step u v h
    unfold notebookRun
    rw [h]

/-- C9 witness: the pdf of the notebook's mixture on a concrete batch
equals itself, and two notebook runs from the same random stream agree. -/
theorem C9_pdf_deterministic_witness :
    gauss.pdfBatch [![0, 0]] = gauss.pdfBatch [![0, 0]] ∧
    notebookRun id (fun _ => 0) = notebookRun id (fun _ => 0) :=
  ⟨C9_pdf_deterministic_sampler_only_random.1 gauss [![0, 0]] [![0, 0]] rfl,
   C9_pdf_deterministic_sampler_only_random.2 id (fun _ => 0) (fun _ => 0) rfl⟩
